import Mathlib

/-!
Verification development for the self-consistency evaluation scripts
(`self_consistency.py` and `accuracy.py`).

Numeric values that the Python code holds as `float` are embedded as `ℚ`;
the regex `\d+(?:\.\d+)?` used by `extract_number` is embedded as an
explicit left-to-right maximal-munch scanner producing the same token list
as `re.findall`, and Python truthiness tests (`if det_answer`, `if answer:`)
are embedded as explicit comparisons with `none` / `0`.
-/

set_option autoImplicit false

/-! ### `extract_number` (self_consistency.py, lines 45-49) -/

/-- Numeric value of a digit character. -/
def digitVal (c : Char) : ℕ := c.toNat - 48

/-- Value of a run of decimal digit characters, most significant first. -/
def digitsToNat (ds : List Char) : ℕ := ds.foldl (fun n c => 10 * n + digitVal c) 0

/-- Split a character list at the first dot, if any (a matched token
contains at most one dot). -/
def splitAtDot : List Char → List Char × Option (List Char)
  | [] => ([], none)
  | c :: cs =>
    if c = '.' then ([], some cs)
    else
      let r := splitAtDot cs
      (c :: r.1, r.2)

/-- `float(tok)` for a token matched by the pattern `\d+(?:\.\d+)?`:
integer part plus fractional part scaled by a power of ten, i.e. the
rational `(i * 10^k + f) / 10^k` for a token `i.f` with `k` fractional
digits. -/
def parseNum (s : String) : ℚ :=
  let r := splitAtDot s.data
  match r.2 with
  | none => (digitsToNat r.1 : ℚ)
  | some f => mkRat (digitsToNat r.1 * 10 ^ f.length + digitsToNat f) (10 ^ f.length)

/-- State of the scanner that reproduces `re.findall(r'\d+(?:\.\d+)?', text)`:
outside a match, inside the integer digits, just after a dot, or inside the
fractional digits. -/
inductive ScanState where
  | outside : ScanState
  | inInt : List Char → ScanState
  | afterDot : List Char → ScanState
  | inFrac : List Char → List Char → ScanState

/-- Token emitted for the pending state at the end of the input (a trailing
dot with no following digit is not part of the match). -/
def emitTok : ScanState → List String
  | .outside => []
  | .inInt ds => [String.mk ds]
  | .afterDot ds => [String.mk ds]
  | .inFrac ds fs => [String.mk (ds ++ '.' :: fs)]

/-- One step of the scanner: greedy digit runs, a dot only kept when a digit
follows, tokens emitted when a match ends. -/
def scanStep : ScanState × List String → Char → ScanState × List String
  | (.outside, acc), c => if c.isDigit then (.inInt [c], acc) else (.outside, acc)
  | (.inInt ds, acc), c =>
    if c.isDigit then (.inInt (ds ++ [c]), acc)
    else if c = '.' then (.afterDot ds, acc)
    else (.outside, acc ++ [String.mk ds])
  | (.afterDot ds, acc), c =>
    if c.isDigit then (.inFrac ds [c], acc)
    else (.outside, acc ++ [String.mk ds])
  | (.inFrac ds fs, acc), c =>
    if c.isDigit then (.inFrac ds (fs ++ [c]), acc)
    else (.outside, acc ++ [String.mk (ds ++ '.' :: fs)])

/-- `re.findall(r'\d+(?:\.\d+)?', text)`: all non-overlapping matches of the
integer-or-decimal pattern, in order of appearance. -/
def reFindall (s : String) : List String :=
  let r := s.data.foldl scanStep (.outside, [])
  r.2 ++ emitTok r.1

/-- `extract_number` (self_consistency.py line 49):
`float(numbers[-1]) if numbers else None`. -/
def extract_number (s : String) : Option ℚ :=
  (reFindall s).getLast?.map parseNum

/-! ### Majority vote: `Counter(answers).most_common(1)[0][0]`
(self_consistency.py, line 75) -/

/-- The keys of `Counter(l)` in insertion order, i.e. the distinct values of
`l` ordered by first occurrence. -/
def counterKeys : List ℚ → List ℚ
  | [] => []
  | a :: l => a :: (counterKeys l).filter (fun x => x ≠ a)

/-- Select, among `b :: ks`, the first value whose occurrence count in `l`
is maximal: a later candidate replaces the current best only when its count
is strictly larger.  This is the selection performed by
`most_common(1)` (stable `heapq.nlargest` over the counter items). -/
def pickFirstMax (l : List ℚ) : ℚ → List ℚ → ℚ
  | b, [] => b
  | b, k :: ks => if l.count b < l.count k then pickFirstMax l k ks else pickFirstMax l b ks

/-- `Counter(l).most_common(1)[0][0]` for non-empty `l`, `none` for empty
`l` (the Python code only evaluates it under `if answers:`). -/
def mostCommon (l : List ℚ) : Option ℚ :=
  match counterKeys l with
  | [] => none
  | k :: ks => some (pickFirstMax l k ks)

/-- Index of the first occurrence of `v` in `l` (length of `l` when `v`
does not occur): the insertion position used by the tie-break statement. -/
def firstIdx (l : List ℚ) (v : ℚ) : ℕ :=
  match l with
  | [] => 0
  | a :: l => if a = v then 0 else firstIdx l v + 1

/-! ### `evaluate_problem` (self_consistency.py, lines 51-92) -/

/-- Line 62: `det_correct = abs(det_answer - correct) < 0.1 if det_answer
else False`.  Python truthiness: the test fails both when extraction
returned `None` and when it returned `0.0`. -/
def detCorrect (a : Option ℚ) (correct : ℚ) : Bool :=
  match a with
  | none => false
  | some v => if v = 0 then false else decide (|v - correct| < 1 / 10)

/-- Body of the sampling loop (lines 69-72): extract an answer from one
response and append it under `if answer:`, which drops both `None` and
`0.0` (Python truthiness). -/
def collectStep (acc : List ℚ) (resp : String) : List ℚ :=
  match extract_number resp with
  | none => acc
  | some a => if a = 0 then acc else acc ++ [a]

/-- Lines 67-72: the retained sampled answers. -/
def collectAnswers (samples : List String) : List ℚ :=
  samples.foldl collectStep []

/-- One entry of the results list (lines 84-92), with the exact field set
persisted to `problems.json`. -/
structure ProblemResult where
  problem : String
  correct_answer : ℚ
  deterministic_answer : Option ℚ
  deterministic_correct : Bool
  majority_answer : Option ℚ
  majority_correct : Bool
  all_answers : List ℚ

/-- `evaluate_problem` (lines 51-92), with the two API responses passed in
as data: the deterministic response text and the ten sampled response
texts.  (The console output of the function is not modelled.) -/
def evaluate_problem (problem : String) (correct : ℚ)
    (detResponse : String) (samples : List String) : ProblemResult :=
  let det_answer := extract_number detResponse
  let answers := collectAnswers samples
  { problem := problem
    correct_answer := correct
    deterministic_answer := det_answer
    deterministic_correct := detCorrect det_answer correct
    majority_answer := mostCommon answers
    majority_correct :=
      match mostCommon answers with
      | some m => decide (|m - correct| < 1 / 10)
      | none => false
    all_answers := answers }

/-- The ten hard-coded problems (lines 21-32). -/
def PROBLEMS : List (String × ℚ) :=
  [("A store sold 450 books Monday, 325 Tuesday, 275 Wednesday. Thursday it sold 50 more than Wednesday. Total books sold?", 1100),
   ("Sarah has $120. Spends 1/4 on jacket, 1/3 of remaining on shoes. Money left?", 60),
   ("Train travels 240 miles in 4 hours. How many miles in 7 hours at same speed?", 420),
   ("Class of 30: 18 girls, rest boys. 2/3 girls and 3/4 boys play sports. How many play sports?", 21),
   ("Rectangle 15cm x 8cm. Length +20%, width -25%. New area?", 108),
   ("Tom scored 85, 92, 78 on three tests. What score needed on fourth test for 88 average?", 97),
   ("Item costs $75, 20% discount, then 6% tax on discounted price. Total paid?", 63.6),
   ("Pool filled by pipe A in 6 hours, pipe B in 8 hours. Both together?", 3.43),
   ("Car to motorcycle ratio 5:2. If 35 cars, how many motorcycles?", 14),
   ("Profit increased from $50,000 to $65,000. Percentage increase?", 30)]

/-! ### The JSON results file (`problems.json`) -/

/-- JSON values, as produced by `json.dump` and consumed by `json.load`. -/
inductive Json where
  | null : Json
  | bool : Bool → Json
  | num : ℚ → Json
  | str : String → Json
  | arr : List Json → Json
  | obj : List (String × Json) → Json

/-- A `float`-or-`None` field, as serialized by `json.dump`. -/
def encodeOptNum : Option ℚ → Json
  | none => .null
  | some v => .num v

/-- The JSON object written for one problem result (the dict literal of
lines 84-92). -/
def encodeResult (r : ProblemResult) : Json :=
  .obj [("problem", .str r.problem),
        ("correct_answer", .num r.correct_answer),
        ("deterministic_answer", encodeOptNum r.deterministic_answer),
        ("deterministic_correct", .bool r.deterministic_correct),
        ("majority_answer", encodeOptNum r.majority_answer),
        ("majority_correct", .bool r.majority_correct),
        ("all_answers", .arr (r.all_answers.map Json.num))]

/-- `json.dump(results, f)` (line 126): the content of `problems.json`. -/
def writeResults (rs : List ProblemResult) : Json :=
  .arr (rs.map encodeResult)

/-- Dictionary field access `r[k]`, `none` standing for a raised
`KeyError`/`TypeError`. -/
def lookupField (j : Json) (k : String) : Option Json :=
  match j with
  | .obj fs => (fs.find? (fun p => p.1 == k)).map (fun p => p.2)
  | _ => none

/-- Python truthiness of a decoded JSON value, as used by
`if r["deterministic_correct"]`. -/
def jsonTruthy : Json → Bool
  | .null => false
  | .bool b => b
  | .num v => decide (v ≠ 0)
  | .str s => decide (s ≠ "")
  | .arr l => !l.isEmpty
  | .obj fs => !fs.isEmpty

/-- Look up field `k` in every element of a decoded results array, failing
(`none`) as soon as one element lacks it. -/
def lookupAll (k : String) : List Json → Option (List Json)
  | [] => some []
  | r :: rs =>
    match lookupField r k, lookupAll k rs with
    | some v, some vs => some (v :: vs)
    | _, _ => none

/-- The two aggregate counts the reporter recomputes from the results file
(accuracy.py, lines 19-20):
`sum(1 for r in results if r["deterministic_correct"])` and the analogous
majority count.  `none` stands for a raised error (file not a list of
dicts with the needed keys). -/
def reporterCounts (j : Json) : Option (ℕ × ℕ) :=
  match j with
  | .arr rs =>
    match lookupAll "deterministic_correct" rs, lookupAll "majority_correct" rs with
    | some ds, some ms => some (ds.countP jsonTruthy, ms.countP jsonTruthy)
    | _, _ => none
  | _ => none

/-- The two counters accumulated by the evaluator loop
(self_consistency.py, lines 101-114). -/
def evaluatorScores (rs : List ProblemResult) : ℕ × ℕ :=
  rs.foldl
    (fun sc r =>
      (if r.deterministic_correct then sc.1 + 1 else sc.1,
       if r.majority_correct then sc.2 + 1 else sc.2))
    (0, 0)

/-! ### Percentage formatting (`f-string` `:.1%` and `:+.1%`) -/

/-- Round to the nearest integer, ties to the even integer (the rounding
used when Python formats a ratio with one decimal digit). -/
def roundHalfEven (q : ℚ) : ℤ :=
  let f := Int.floor q
  let r := q - f
  if r < 1 / 2 then f
  else if 1 / 2 < r then f + 1
  else if f % 2 = 0 then f else f + 1

/-- `f"{q:.1%}"`: the ratio as a percentage with one decimal digit. -/
def fmtPct (q : ℚ) : String :=
  let n := roundHalfEven (q * 1000)
  (if n < 0 then "-" else "") ++ toString (n.natAbs / 10) ++ "." ++ toString (n.natAbs % 10) ++ "%"

/-- `f"{q:+.1%}"`: as `fmtPct`, with an explicit sign. -/
def fmtPctSigned (q : ℚ) : String :=
  let n := roundHalfEven (q * 1000)
  (if n < 0 then "-" else "+") ++ toString (n.natAbs / 10) ++ "." ++ toString (n.natAbs % 10) ++ "%"

/-! ### `create_accuracy_chart` (accuracy.py, lines 9-50) -/

/-- The console lines printed by a successful reporter run, given the two
counts and the number of results (accuracy.py, lines 43-50). -/
def reporterLines (det maj total : ℕ) : List String :=
  ["Accuracy chart saved as accuracy.png",
   "\nAccuracy Results:",
   "Deterministic: " ++ toString det ++ "/" ++ toString total ++
     " (" ++ fmtPct ((det : ℚ) / (total : ℚ)) ++ ")",
   "Majority Vote: " ++ toString maj ++ "/" ++ toString total ++
     " (" ++ fmtPct ((maj : ℚ) / (total : ℚ)) ++ ")",
   "Improvement: " ++ fmtPctSigned (((maj : ℚ) - (det : ℚ)) / (total : ℚ))]

/-- `create_accuracy_chart`, as a function of the results-file content
(`none` when `problems.json` does not exist).  The result is either
`.error e` — an uncaught exception `e` (a `KeyError`/`TypeError` while
counting, or a `ZeroDivisionError` on an empty results list) — or
`.ok (printed, image)`: the console lines printed and the image file
written, if any. -/
def create_accuracy_chart (file : Option Json) : Except String (List String × Option String) :=
  match file with
  | none => .ok (["Run self_consistency.py first to generate results"], none)
  | some j =>
    match j, reporterCounts j with
    | .arr rs, some dm =>
      if rs.length = 0 then .error "ZeroDivisionError"
      else .ok (reporterLines dm.1 dm.2 rs.length, some "accuracy.png")
    | _, _ => .error "KeyError or TypeError"

/-! ### `main` (self_consistency.py, lines 94-127) -/

/-- Observable outcome of one evaluator run: console lines (the per-problem
progress lines are not modelled, only the credential message and the final
summary), number of completion requests issued, and the content written to
`problems.json`, if any. -/
structure MainOutcome where
  printed : List String
  networkCalls : ℕ
  resultsFile : Option Json

/-- `main` of self_consistency.py (the name `main` is reserved in Lean), as
a function of the `OPENAI_API_KEY` environment value and of the completion
service, given as an oracle mapping (problem index, request index) to the
response text; request index `0` is the deterministic request, `1`-`10`
are the sampled ones.  The guard is line 96:
`if not os.environ.get("OPENAI_API_KEY")`, true for a missing or empty
credential. -/
def mainEvaluator (apiKey : Option String) (oracle : ℕ → ℕ → String) : MainOutcome :=
  if (match apiKey with | none => true | some s => s == "") then
    { printed := ["Set OPENAI_API_KEY environment variable"]
      networkCalls := 0
      resultsFile := none }
  else
    let results := (List.range PROBLEMS.length).map (fun i =>
      let p := PROBLEMS.getD i ("", 0)
      evaluate_problem p.1 p.2 (oracle i 0) ((List.range 10).map (fun k => oracle i (k + 1))))
    let sc := evaluatorScores results
    let d : ℤ := ((sc.2 : ℤ) - (sc.1 : ℤ)) * 10
    { printed := ["RESULTS",
        "Deterministic accuracy: " ++ toString sc.1 ++ "/10 (" ++ toString (sc.1 * 10) ++ "%)",
        "Majority vote accuracy: " ++ toString sc.2 ++ "/10 (" ++ toString (sc.2 * 10) ++ "%)",
        "Improvement: " ++ (if 0 ≤ d then "+" ++ toString d else toString d) ++ "%",
        "\nResults saved to problems.json"]
      networkCalls := PROBLEMS.length * 11
      resultsFile := some (writeResults results) }

/-- The module-level client construction (self_consistency.py, line 18):
`client = OpenAI(api_key=os.environ.get("OPENAI_API_KEY"))`.  The
openai-python v1 `OpenAI` constructor raises `OpenAIError` when the api key
resolves to `None` (credential absent from the environment after
`load_dotenv`); any string value, including the empty string, is accepted
without a check.  This runs at import time, before `main()` is called. -/
def clientInit (apiKey : Option String) : Except String Unit :=
  match apiKey with
  | none => .error "OpenAIError"
  | some _ => .ok ()

/-- Running `self_consistency.py` as a script: module-level initialization
(line 18) and then `main()` (line 130).  `.error e` is an uncaught
exception terminating the process — when `clientInit` raises, `main` and
its credential guard are never reached. -/
def runEvaluator (apiKey : Option String) (oracle : ℕ → ℕ → String) : Except String MainOutcome :=
  match clientInit apiKey with
  | .error e => .error e
  | .ok _ => .ok (mainEvaluator apiKey oracle)

/-! ### Helper lemmas -/

theorem counterKeys_mem (l : List ℚ) (v : ℚ) : v ∈ counterKeys l ↔ v ∈ l := by
  induction l with
  | nil => simp [counterKeys]
  | cons a l ih =>
    by_cases hv : v = a <;> simp [counterKeys, List.mem_filter, ih, hv]

theorem pickFirstMax_mem (l : List ℚ) (ks : List ℚ) (b : ℚ) :
    pickFirstMax l b ks = b ∨ pickFirstMax l b ks ∈ ks := by
  induction ks generalizing b with
  | nil => exact Or.inl rfl
  | cons k ks ih =>
    rw [pickFirstMax]
    by_cases h : l.count b < l.count k
    · simp only [h, if_true]
      rcases ih k with h1 | h1 <;> simp [h1]
    · simp only [h, if_false]
      rcases ih b with h1 | h1
      · exact Or.inl h1
      · exact Or.inr (List.mem_cons_of_mem _ h1)

theorem mostCommon_mem (l : List ℚ) (v : ℚ) (h : mostCommon l = some v) : v ∈ l := by
  unfold mostCommon at h
  cases hc : counterKeys l with
  | nil => rw [hc] at h; exact absurd h (by simp)
  | cons k ks =>
    rw [hc] at h
    have hv : v = pickFirstMax l k ks := by injection h with h; exact h.symm
    have : v ∈ counterKeys l := by
      rw [hc]
      rcases pickFirstMax_mem l ks k with h1 | h1
      · rw [hv, h1]; exact List.mem_cons_self _ _
      · exact List.mem_cons_of_mem _ (hv ▸ h1)
    exact (counterKeys_mem l v).mp this

theorem collectStep_append (acc : List ℚ) (r : String) :
    collectStep acc r = acc ++ collectStep [] r := by
  unfold collectStep
  cases extract_number r with
  | none => simp
  | some a => by_cases h : a = 0 <;> simp [h]

theorem collect_shift (samples : List String) :
    ∀ acc : List ℚ, samples.foldl collectStep acc = acc ++ samples.foldl collectStep [] := by
  induction samples with
  | nil => simp
  | cons s ss ih =>
    intro acc
    simp only [List.foldl_cons]
    rw [ih (collectStep acc s), ih (collectStep [] s), collectStep_append,
      List.append_assoc]

theorem collect_cons (s : String) (ss : List String) :
    collectAnswers (s :: ss) = collectStep [] s ++ collectAnswers ss := by
  unfold collectAnswers
  simp only [List.foldl_cons]
  rw [collect_shift ss (collectStep [] s)]

theorem lookupField_encode_det (r : ProblemResult) :
    lookupField (encodeResult r) "deterministic_correct" = some (.bool r.deterministic_correct) := rfl

theorem lookupField_encode_maj (r : ProblemResult) :
    lookupField (encodeResult r) "majority_correct" = some (.bool r.majority_correct) := rfl

theorem lookupAll_encode_det (rs : List ProblemResult) :
    lookupAll "deterministic_correct" (rs.map encodeResult)
      = some (rs.map (fun r => Json.bool r.deterministic_correct)) := by
  induction rs with
  | nil => rfl
  | cons r rs ih => simp [lookupAll, lookupField_encode_det, ih]

theorem lookupAll_encode_maj (rs : List ProblemResult) :
    lookupAll "majority_correct" (rs.map encodeResult)
      = some (rs.map (fun r => Json.bool r.majority_correct)) := by
  induction rs with
  | nil => rfl
  | cons r rs ih => simp [lookupAll, lookupField_encode_maj, ih]

theorem countP_bool_map (rs : List ProblemResult) (f : ProblemResult → Bool) :
    (rs.map (fun r => Json.bool (f r))).countP jsonTruthy = rs.countP f := by
  rw [List.countP_map]; rfl

theorem evaluatorScores_shift (rs : List ProblemResult) :
    ∀ d m : ℕ,
      rs.foldl
        (fun sc r =>
          (if r.deterministic_correct then sc.1 + 1 else sc.1,
           if r.majority_correct then sc.2 + 1 else sc.2)) (d, m)
        = (d + rs.countP (fun r => r.deterministic_correct),
           m + rs.countP (fun r => r.majority_correct)) := by
  induction rs with
  | nil => intro d m; simp
  | cons r rs ih =>
    intro d m
    simp only [List.foldl_cons, ih, List.countP_cons]
    cases hd : r.deterministic_correct <;> cases hm : r.majority_correct <;>
      simp [hd, hm] <;> omega

theorem evaluatorScores_eq (rs : List ProblemResult) :
    evaluatorScores rs
      = (rs.countP (fun r => r.deterministic_correct),
         rs.countP (fun r => r.majority_correct)) := by
  unfold evaluatorScores
  simpa using evaluatorScores_shift rs 0 0

/-! ### Claim theorems -/

theorem reporterCounts_writeResults (rs : List ProblemResult) :
    reporterCounts (writeResults rs)
      = some (rs.countP (fun r => r.deterministic_correct),
              rs.countP (fun r => r.majority_correct)) := by
  unfold reporterCounts writeResults
  simp only [lookupAll_encode_det, lookupAll_encode_maj]
  rw [countP_bool_map rs (fun r => r.deterministic_correct),
    countP_bool_map rs (fun r => r.majority_correct)]

/-- C5: for every sequence of problem results, the counts the reporter
recomputes by scanning the persisted results file equal the counts the
evaluator accumulated during its loop. -/
theorem c5_roundtrip_counts (rs : List ProblemResult) :
    reporterCounts (writeResults rs) = some (evaluatorScores rs) := by
  rw [reporterCounts_writeResults, evaluatorScores_eq]

/-- C7 fails on the code: with the API credential absent, the run
terminates with an uncaught `OpenAIError` raised by the module-level
client construction (line 18) before `main()` runs, so the guard's
message is never printed — though indeed no completion request is made
and no results file is written.  The clean early exit with
"Set OPENAI_API_KEY environment variable" (lines 96-98) is reachable
only when the credential is present but empty. -/
theorem c7_module_init_crash (oracle : ℕ → ℕ → String) :
    runEvaluator none oracle = .error "OpenAIError"
    ∧ runEvaluator (some "") oracle
        = .ok { printed := ["Set OPENAI_API_KEY environment variable"]
                networkCalls := 0
                resultsFile := none } :=
  ⟨rfl, rfl⟩

/-- C8: when the results file does not exist, the reporter does not raise,
prints the instructional message, and writes no image file. -/
theorem c8_missing_results_file :
    create_accuracy_chart none
      = .ok (["Run self_consistency.py first to generate results"], none) := rfl

/-- C9: whenever a problem result carries a majority answer, that answer is
one of the retained sampled answers. -/
theorem c9_majority_answer_mem (p : String) (c : ℚ) (d : String)
    (samples : List String) (v : ℚ)
    (h : (evaluate_problem p c d samples).majority_answer = some v) :
    v ∈ (evaluate_problem p c d samples).all_answers := by
  have h' : mostCommon (collectAnswers samples) = some v := h
  exact mostCommon_mem _ _ h'

theorem c9_majority_answer_mem_witness :
    (14 : ℚ) ∈ (evaluate_problem "p" 1 "" ["14"]).all_answers :=
  c9_majority_answer_mem "p" 1 "" ["14"] 14 (by decide)

theorem parseNum_nonneg (s : String) : 0 ≤ parseNum s := by
  unfold parseNum
  cases h : (splitAtDot s.data).2 with
  | none => simp [h]
  | some f =>
    simp only [h]
    rw [Rat.mkRat_eq_div]
    positivity

/-- C10: a value returned by the numeric extractor is never negative (the
pattern matches no sign character). -/
theorem c10_extract_nonneg (s : String) (v : ℚ) (h : extract_number s = some v) :
    0 ≤ v := by
  unfold extract_number at h
  cases hl : (reFindall s).getLast? with
  | none => rw [hl] at h; exact absurd h (by simp)
  | some t =>
    rw [hl] at h
    simp only [Option.map_some', Option.some.injEq] at h
    exact h ▸ parseNum_nonneg t

theorem c10_extract_nonneg_witness :
    extract_number "5" = some 5 ∧ (0 : ℚ) ≤ 5 :=
  ⟨by decide, c10_extract_nonneg "5" 5 (by decide)⟩

/-- C3 as stated is false: an answer whose extraction succeeded with the
value `0.0` is nevertheless excluded from the vote, because line 71 tests
Python truthiness (`if answer:`) rather than extraction success.  Here the
sampled response "0" yields the successfully extracted answer `0.0`, yet
the retained candidate pool is empty. -/
theorem c3_counterexample :
    extract_number "0" = some 0
      ∧ (evaluate_problem "p" 1 "x" ["0"]).all_answers = [] :=
  ⟨by decide, by decide⟩

/-- C3 amended: a sampled answer is retained for the vote exactly when
extraction succeeded AND the extracted value is non-zero (Python
truthiness); extraction failures, and extracted zeros, are excluded. -/
theorem mem_collectStep_nil (s : String) (a : ℚ) :
    a ∈ collectStep [] s ↔ a ≠ 0 ∧ extract_number s = some a := by
  unfold collectStep
  cases h : extract_number s with
  | none => simp
  | some b =>
    by_cases hb : b = 0
    · subst hb
      simp only [if_pos rfl]
      constructor
      · intro hmem; simp at hmem
      · rintro ⟨ha, hsome⟩
        exact absurd (Option.some.inj hsome).symm ha
    · simp only [if_neg hb, List.nil_append, List.mem_singleton]
      constructor
      · rintro rfl
        exact ⟨hb, rfl⟩
      · rintro ⟨ha, hsome⟩
        exact (Option.some.inj hsome).symm

theorem c3_amended_retained_iff (samples : List String) (a : ℚ) :
    a ∈ collectAnswers samples
      ↔ a ≠ 0 ∧ ∃ s ∈ samples, extract_number s = some a := by
  induction samples with
  | nil => simp [collectAnswers]
  | cons s ss ih =>
    rw [collect_cons, List.mem_append, ih, mem_collectStep_nil]
    constructor
    · rintro (⟨ha, hs⟩ | ⟨ha, t, ht, hext⟩)
      · exact ⟨ha, s, List.mem_cons_self s ss, hs⟩
      · exact ⟨ha, t, List.mem_cons_of_mem _ ht, hext⟩
    · rintro ⟨ha, t, ht, hext⟩
      rcases List.mem_cons.mp ht with rfl | ht'
      · exact Or.inl ⟨ha, hext⟩
      · exact Or.inr ⟨ha, t, ht', hext⟩

theorem c3_amended_retained_iff_witness :
    (7 : ℚ) ∈ collectAnswers ["7"] :=
  (c3_amended_retained_iff ["7"] 7).mpr
    ⟨by norm_num, "7", List.mem_singleton_self _, by decide⟩

/-! ### Scanner lemmas for C4 -/

theorem scan_noDigit (cs : List Char) :
    ∀ acc : List String, (∀ c ∈ cs, c.isDigit = false) →
      cs.foldl scanStep (.outside, acc) = (.outside, acc) := by
  induction cs with
  | nil => intro acc _; rfl
  | cons c cs ih =>
    intro acc h
    have hc : c.isDigit = false := h c (List.mem_cons_self c cs)
    simp only [List.foldl_cons]
    have hstep : scanStep (.outside, acc) c = (.outside, acc) := by
      simp [scanStep, hc]
    rw [hstep]
    exact ih acc (fun x hx => h x (List.mem_cons_of_mem _ hx))

theorem scanStep_preserves (st : ScanState) (acc : List String) (c : Char)
    (h : st ≠ .outside ∨ acc ≠ []) :
    (scanStep (st, acc) c).1 ≠ .outside ∨ (scanStep (st, acc) c).2 ≠ [] := by
  cases st with
  | outside =>
    have hacc : acc ≠ [] := by
      rcases h with h | h
      · exact absurd rfl h
      · exact h
    by_cases hc : c.isDigit = true <;> simp [scanStep, hc, hacc]
  | inInt ds =>
    by_cases hc : c.isDigit = true
    · simp [scanStep, hc]
    · by_cases hd : c = '.' <;> simp [scanStep, hc, hd]
  | afterDot ds =>
    by_cases hc : c.isDigit = true <;> simp [scanStep, hc]
  | inFrac ds fs =>
    by_cases hc : c.isDigit = true <;> simp [scanStep, hc]

theorem scanStep_digit (st : ScanState) (acc : List String) (c : Char)
    (h : c.isDigit = true) : (scanStep (st, acc) c).1 ≠ .outside := by
  cases st <;> simp [scanStep, h]

theorem scan_progress (cs : List Char) :
    ∀ (st : ScanState) (acc : List String), st ≠ .outside ∨ acc ≠ [] →
      (cs.foldl scanStep (st, acc)).2 ++ emitTok (cs.foldl scanStep (st, acc)).1 ≠ [] := by
  induction cs with
  | nil =>
    intro st acc h
    simp only [List.foldl_nil]
    rcases h with h | h
    · cases st with
      | outside => exact absurd rfl h
      | inInt ds => simp [emitTok]
      | afterDot ds => simp [emitTok]
      | inFrac ds fs => simp [emitTok]
    · simp [h]
  | cons c cs ih =>
    intro st acc h
    simp only [List.foldl_cons]
    have := scanStep_preserves st acc c h
    rcases hs : scanStep (st, acc) c with ⟨st', acc'⟩
    rw [hs] at this
    exact ih st' acc' this

theorem reFindall_eq_nil_iff (s : String) :
    reFindall s = [] ↔ ∀ c ∈ s.data, c.isDigit = false := by
  constructor
  · intro h
    by_contra hne
    push_neg at hne
    obtain ⟨c, hc, hdig⟩ := hne
    have hdig' : c.isDigit = true := by
      cases hcd : c.isDigit with
      | false => exact absurd hcd hdig
      | true => rfl
    obtain ⟨l1, l2, hsplit⟩ := List.append_of_mem hc
    have : reFindall s ≠ [] := by
      unfold reFindall
      rw [hsplit, List.foldl_append, List.foldl_cons]
      rcases h1 : l1.foldl scanStep (ScanState.outside, ([] : List String)) with ⟨st1, acc1⟩
      have hne1 : (scanStep (st1, acc1) c).1 ≠ .outside := scanStep_digit st1 acc1 c hdig'
      rcases h2 : scanStep (st1, acc1) c with ⟨st2, acc2⟩
      rw [h2] at hne1
      exact scan_progress l2 st2 acc2 (Or.inl hne1)
    exact this h
  · intro h
    unfold reFindall
    rw [scan_noDigit s.data [] h]
    rfl

theorem extract_number_eq_none_iff (s : String) :
    extract_number s = none ↔ ∀ c ∈ s.data, c.isDigit = false := by
  unfold extract_number
  rw [Option.map_eq_none', List.getLast?_eq_none_iff, reFindall_eq_nil_iff]

/-- C4: the extractor finds all matches of the integer-or-decimal pattern
in order of appearance and returns the last one parsed as a number
(108 for "The area is 108 square cm", 4 for "12 people and 3 groups,
answer: 4"), and returns `none` exactly when the text contains no digit,
i.e. no match exists. -/
theorem c4_extractor :
    extract_number "The area is 108 square cm" = some 108
    ∧ extract_number "12 people and 3 groups, answer: 4" = some 4
    ∧ (∀ (s : String) (ts : List String) (t : String),
        reFindall s = ts ++ [t] → extract_number s = some (parseNum t))
    ∧ ∀ s : String, extract_number s = none ↔ ∀ c ∈ s.data, c.isDigit = false := by
  refine ⟨by decide, by decide, ?_, extract_number_eq_none_iff⟩
  intro s ts t h
  unfold extract_number
  rw [h, List.getLast?_concat, Option.map_some']

theorem c4_extractor_witness : extract_number "no digits at all" = none :=
  (c4_extractor.2.2.2 "no digits at all").mpr (by decide)

/-- C1: for every problem of the benchmark, whenever a numeric answer was
extracted from the deterministic response, `deterministic_correct` holds
iff the extracted answer is within strictly less than 0.1 of the correct
answer; the same tolerance rule decides `majority_correct` for the
selected majority answer.  (For the extracted value `0.0` the code's
truthiness test short-circuits to `False`; on this benchmark every correct
answer is at least 0.1 away from 0, so the biconditional still holds.) -/
theorem detCorrect_some (v c : ℚ) :
    detCorrect (some v) c = if v = 0 then false else decide (|v - c| < 1 / 10) := rfl

theorem c1_tolerance (p : String × ℚ) (hp : p ∈ PROBLEMS)
    (d : String) (samples : List String) :
    (∀ v : ℚ, extract_number d = some v →
      (evaluate_problem p.1 p.2 d samples).deterministic_correct
        = decide (|v - p.2| < 1 / 10))
    ∧ (∀ m : ℚ, (evaluate_problem p.1 p.2 d samples).majority_answer = some m →
      (evaluate_problem p.1 p.2 d samples).majority_correct
        = decide (|m - p.2| < 1 / 10)) := by
  constructor
  · intro v hv
    have hdc : (evaluate_problem p.1 p.2 d samples).deterministic_correct
        = detCorrect (extract_number d) p.2 := rfl
    rw [hdc, hv, detCorrect_some]
    by_cases hv0 : v = 0
    · subst hv0
      rw [if_pos rfl]
      symm
      rw [decide_eq_false_iff_not, abs_sub_lt_iff]
      fin_cases hp <;> (rintro ⟨h1, h2⟩; norm_num at h2)
    · simp [hv0]
  · intro m hm
    have hma : (evaluate_problem p.1 p.2 d samples).majority_answer
        = mostCommon (collectAnswers samples) := rfl
    rw [hma] at hm
    have hmc : (evaluate_problem p.1 p.2 d samples).majority_correct
        = match mostCommon (collectAnswers samples) with
          | some x => decide (|x - p.2| < 1 / 10)
          | none => false := rfl
    rw [hmc, hm]

theorem c1_tolerance_witness :
    (evaluate_problem "Item costs $75, 20% discount, then 6% tax on discounted price. Total paid?"
        63.6 "answer: 63.65" []).deterministic_correct = true
    ∧ (evaluate_problem "Item costs $75, 20% discount, then 6% tax on discounted price. Total paid?"
        63.6 "answer: 63.5" []).deterministic_correct = false := by
  constructor
  · have h := (c1_tolerance
        ("Item costs $75, 20% discount, then 6% tax on discounted price. Total paid?", 63.6)
        (by simp [PROBLEMS]) "answer: 63.65" []).1 63.65 (by
          have hf : reFindall "answer: 63.65" = ["63.65"] := by decide
          simp [extract_number, hf, parseNum, splitAtDot, digitsToNat, digitVal]
          norm_num [Rat.mkRat_eq_div])
    rw [h, decide_eq_true_iff, abs_sub_lt_iff]
    constructor <;> norm_num
  · have h := (c1_tolerance
        ("Item costs $75, 20% discount, then 6% tax on discounted price. Total paid?", 63.6)
        (by simp [PROBLEMS]) "answer: 63.5" []).1 63.5 (by
          have hf : reFindall "answer: 63.5" = ["63.5"] := by decide
          simp [extract_number, hf, parseNum, splitAtDot, digitsToNat, digitVal]
          norm_num [Rat.mkRat_eq_div])
    rw [h, decide_eq_false_iff_not, abs_sub_lt_iff]
    rintro ⟨h1, h2⟩
    norm_num at h2

/-! ### Majority-selection lemmas for C2 -/

theorem counterKeys_eq_nil (l : List ℚ) : counterKeys l = [] ↔ l = [] := by
  cases l <;> simp [counterKeys]

theorem firstIdx_cons_self (a : ℚ) (l : List ℚ) : firstIdx (a :: l) a = 0 := by
  show (if a = a then 0 else firstIdx l a + 1) = 0
  rw [if_pos rfl]

theorem firstIdx_cons_ne (a v : ℚ) (l : List ℚ) (h : a ≠ v) :
    firstIdx (a :: l) v = firstIdx l v + 1 := by
  show (if a = v then 0 else firstIdx l v + 1) = firstIdx l v + 1
  rw [if_neg h]

theorem pickFirstMax_count_ge (l : List ℚ) (ks : List ℚ) :
    ∀ b : ℚ, l.count b ≤ l.count (pickFirstMax l b ks)
      ∧ ∀ u ∈ ks, l.count u ≤ l.count (pickFirstMax l b ks) := by
  induction ks with
  | nil => intro b; exact ⟨le_refl _, by simp⟩
  | cons k ks ih =>
    intro b
    rw [pickFirstMax]
    by_cases h : l.count b < l.count k
    · rw [if_pos h]
      obtain ⟨h1, h2⟩ := ih k
      refine ⟨le_trans (le_of_lt h) h1, ?_⟩
      intro u hu
      rcases List.mem_cons.mp hu with rfl | hu'
      · exact h1
      · exact h2 u hu'
    · rw [if_neg h]
      obtain ⟨h1, h2⟩ := ih b
      refine ⟨h1, ?_⟩
      intro u hu
      rcases List.mem_cons.mp hu with rfl | hu'
      · exact le_trans (not_lt.mp h) h1
      · exact h2 u hu'

theorem pickFirstMax_first (l : List ℚ) (ks : List ℚ) :
    ∀ b : ℚ, ∃ pre suf : List ℚ,
      b :: ks = pre ++ pickFirstMax l b ks :: suf
        ∧ ∀ u ∈ pre, l.count u < l.count (pickFirstMax l b ks) := by
  induction ks with
  | nil => intro b; exact ⟨[], [], rfl, by simp⟩
  | cons k ks ih =>
    intro b
    rw [pickFirstMax]
    by_cases h : l.count b < l.count k
    · rw [if_pos h]
      obtain ⟨pre, suf, heq, hlt⟩ := ih k
      refine ⟨b :: pre, suf, ?_, ?_⟩
      · rw [List.cons_append, ← heq]
      · intro u hu
        rcases List.mem_cons.mp hu with rfl | hu'
        · exact lt_of_lt_of_le h (pickFirstMax_count_ge l ks k).1
        · exact hlt u hu'
    · rw [if_neg h]
      obtain ⟨pre, suf, heq, hlt⟩ := ih b
      cases pre with
      | nil =>
        have hb : b = pickFirstMax l b ks := by
          have := congrArg (fun t => t.head?) heq
          simpa using this
        refine ⟨[], k :: ks, ?_, by simp⟩
        rw [List.nil_append, ← hb]
      | cons p0 pre' =>
        have hb : b = p0 ∧ ks = pre' ++ pickFirstMax l b ks :: suf := by
          rw [List.cons_append] at heq
          exact ⟨List.head_eq_of_cons_eq heq, List.tail_eq_of_cons_eq heq⟩
        obtain ⟨hb0, hks⟩ := hb
        have hbpre : l.count b < l.count (pickFirstMax l b ks) := by
          have h0 := hlt p0 (List.mem_cons_self p0 pre')
          rw [← hb0] at h0
          exact h0
        refine ⟨b :: k :: pre', suf, ?_, ?_⟩
        · rw [List.cons_append, List.cons_append]
          exact congrArg (fun t => b :: k :: t) hks
        · intro u hu
          rcases List.mem_cons.mp hu with rfl | hu'
          · exact hbpre
          · rcases List.mem_cons.mp hu' with rfl | hu''
            · exact lt_of_le_of_lt (not_lt.mp h) hbpre
            · exact hlt u (List.mem_cons_of_mem _ hu'')

theorem counterKeys_pairwise (l : List ℚ) :
    (counterKeys l).Pairwise (fun x y => firstIdx l x < firstIdx l y) := by
  induction l with
  | nil => simp [counterKeys]
  | cons a l ih =>
    rw [counterKeys, List.pairwise_cons]
    constructor
    · intro y hy
      have hyne : y ≠ a := by
        have := (List.mem_filter.mp hy).2
        simpa using this
      rw [firstIdx_cons_self, firstIdx_cons_ne a y l (Ne.symm hyne)]
      exact Nat.succ_pos _
    · have hsub : ((counterKeys l).filter (fun x => x ≠ a)).Pairwise
          (fun x y => firstIdx l x < firstIdx l y) :=
        ih.sublist (List.filter_sublist _)
      refine hsub.imp_of_mem ?_
      intro x y hx hy hR
      have hxne : x ≠ a := by
        have := (List.mem_filter.mp hx).2
        simpa using this
      have hyne : y ≠ a := by
        have := (List.mem_filter.mp hy).2
        simpa using this
      rw [firstIdx_cons_ne a x l (Ne.symm hxne), firstIdx_cons_ne a y l (Ne.symm hyne)]
      exact Nat.succ_lt_succ hR

/-- C2: for a non-empty candidate list the selected majority answer is a
retained answer whose occurrence count is maximal, and among the values
attaining the maximal count it is the one with the earliest first
occurrence (ties broken by insertion order); a non-empty list always
yields a majority answer; `[14, 14, 15, 14, 20]` yields `14`; and for an
empty candidate list the majority answer is absent and `majority_correct`
is false. -/
theorem c2_majority_selection :
    (∀ (l : List ℚ) (v : ℚ), mostCommon l = some v →
      v ∈ l ∧ (∀ u ∈ l, l.count u ≤ l.count v)
        ∧ ∀ u ∈ l, l.count u = l.count v → firstIdx l v ≤ firstIdx l u)
    ∧ (∀ l : List ℚ, l ≠ [] → (mostCommon l).isSome = true)
    ∧ mostCommon [14, 14, 15, 14, 20] = some 14
    ∧ ∀ (p : String) (c : ℚ) (d : String),
        (evaluate_problem p c d []).majority_answer = none
          ∧ (evaluate_problem p c d []).majority_correct = false := by
  refine ⟨?_, ?_, by decide, fun p c d => ⟨rfl, rfl⟩⟩
  · intro l v h
    have hmem : v ∈ l := mostCommon_mem l v h
    unfold mostCommon at h
    cases hc : counterKeys l with
    | nil => rw [hc] at h; exact absurd h (by simp)
    | cons k ks =>
      rw [hc] at h
      have hv : pickFirstMax l k ks = v := Option.some.inj h
      refine ⟨hmem, ?_, ?_⟩
      · intro u hu
        have hu' : u ∈ counterKeys l := (counterKeys_mem l u).mpr hu
        rw [hc] at hu'
        obtain ⟨h1, h2⟩ := pickFirstMax_count_ge l ks k
        rcases List.mem_cons.mp hu' with rfl | huks
        · exact hv ▸ h1
        · exact hv ▸ h2 u huks
      · intro u hu hcnt
        obtain ⟨pre, suf, heq, hlt⟩ := pickFirstMax_first l ks k
        rw [hv] at heq hlt
        have hu' : u ∈ counterKeys l := (counterKeys_mem l u).mpr hu
        rw [hc, heq] at hu'
        have hpw := counterKeys_pairwise l
        rw [hc, heq] at hpw
        rcases List.mem_append.mp hu' with hupre | husuf
        · exact absurd hcnt (ne_of_lt (hlt u hupre))
        · rcases List.mem_cons.mp husuf with rfl | husuf'
          · exact le_refl _
          · have hp2 := (List.pairwise_append.mp hpw).2.1
            exact le_of_lt ((List.pairwise_cons.mp hp2).1 u husuf')
  · intro l hl
    unfold mostCommon
    cases hc : counterKeys l with
    | nil => exact absurd ((counterKeys_eq_nil l).mp hc) hl
    | cons k ks => rfl

theorem c2_majority_selection_witness :
    (14 : ℚ) ∈ ([14, 14, 15, 14, 20] : List ℚ) :=
  (c2_majority_selection.1 [14, 14, 15, 14, 20] 14 (by decide)).1

/-- C6: a results file holding 10 problem results, exactly 7 of them
deterministically correct and exactly 9 majority-correct, makes the
reporter print the percentages 70.0% and 90.0% and the improvement
+20.0%, each accuracy computed as correct count over total count. -/
theorem create_chart_arr (rs' : List Json) (dm : ℕ × ℕ)
    (h : reporterCounts (Json.arr rs') = some dm) :
    create_accuracy_chart (some (Json.arr rs'))
      = if rs'.length = 0 then .error "ZeroDivisionError"
        else .ok (reporterLines dm.1 dm.2 rs'.length, some "accuracy.png") := by
  have hstep : create_accuracy_chart (some (Json.arr rs'))
      = (match Json.arr rs', reporterCounts (Json.arr rs') with
         | Json.arr rs, some dm =>
           if rs.length = 0 then .error "ZeroDivisionError"
           else .ok (reporterLines dm.1 dm.2 rs.length, some "accuracy.png")
         | _, _ => .error "KeyError or TypeError") := rfl
  rw [hstep, h]

theorem c6_reporter_percentages (rs : List ProblemResult)
    (hlen : rs.length = 10)
    (hdet : rs.countP (fun r => r.deterministic_correct) = 7)
    (hmaj : rs.countP (fun r => r.majority_correct) = 9) :
    create_accuracy_chart (some (writeResults rs))
      = .ok (["Accuracy chart saved as accuracy.png",
              "\nAccuracy Results:",
              "Deterministic: 7/10 (70.0%)",
              "Majority Vote: 9/10 (90.0%)",
              "Improvement: +20.0%"], some "accuracy.png") := by
  have hrc : reporterCounts (Json.arr (rs.map encodeResult)) = some (7, 9) := by
    have h0 := reporterCounts_writeResults rs
    rw [hdet, hmaj] at h0
    exact h0
  have hchart := create_chart_arr (rs.map encodeResult) (7, 9) hrc
  rw [List.length_map, hlen] at hchart
  norm_num at hchart
  have h1 : fmtPct (((7 : ℕ) : ℚ) / ((10 : ℕ) : ℚ)) = "70.0%" := by
    norm_num [fmtPct, roundHalfEven]
    rfl
  have h2 : fmtPct (((9 : ℕ) : ℚ) / ((10 : ℕ) : ℚ)) = "90.0%" := by
    norm_num [fmtPct, roundHalfEven]
    rfl
  have h3 : fmtPctSigned ((((9 : ℕ) : ℚ) - ((7 : ℕ) : ℚ)) / ((10 : ℕ) : ℚ)) = "+20.0%" := by
    norm_num [fmtPctSigned, roundHalfEven]
    rfl
  have hlines : reporterLines 7 9 10
      = ["Accuracy chart saved as accuracy.png",
         "\nAccuracy Results:",
         "Deterministic: 7/10 (70.0%)",
         "Majority Vote: 9/10 (90.0%)",
         "Improvement: +20.0%"] := by
    unfold reporterLines
    rw [h1, h2, h3]
    decide
  exact hchart.trans (by rw [hlines])

theorem c6_reporter_percentages_witness :
    create_accuracy_chart (some (writeResults
      (List.replicate 7 ⟨"p", 0, none, true, none, true, []⟩
        ++ List.replicate 2 ⟨"p", 0, none, false, none, true, []⟩
        ++ [⟨"p", 0, none, false, none, false, []⟩])))
      = .ok (["Accuracy chart saved as accuracy.png",
              "\nAccuracy Results:",
              "Deterministic: 7/10 (70.0%)",
              "Majority Vote: 9/10 (90.0%)",
              "Improvement: +20.0%"], some "accuracy.png") :=
  c6_reporter_percentages _ (by decide) (by decide) (by decide)
